import Mathlib

/-!
Verification development for the migration execution engine of a
POS-to-commerce migration tool.  The definitions below are a shallow
embedding of the TypeScript sources `src/services/shopifyAPIService.ts`
and `src/services/migrationOrchestrator.ts`: records are association
lists of JavaScript-like values, the stateful pieces (rate limiter,
retry queue, batch executor, orchestrator) are explicit state-passing
functions, and per-operation network outcomes are supplied by an
environment/oracle parameter.  JavaScript numbers are idealized as
rationals, with NaN modelled as a distinguished value (`JSVal.nan` for
field values, `none` for arithmetic results such as the integrity
percentage).  Exponent/hexadecimal numeric literals and object
reference identity are outside the modelled value universe, except
that strict equality on two distinct array objects is `false`, as in
the source where compared records are always distinct objects.
-/

/-- Value universe for record fields: strings, finite numbers, NaN,
booleans, arrays of strings, and `undefined` (also the result of
reading an absent property). -/
inductive JSVal where
  | str (s : String)
  | num (q : ℚ)
  | nan
  | bool (b : Bool)
  | arr (elems : List String)
  | undef
deriving DecidableEq, Repr

/-- Truthiness of a JavaScript value ("", 0, NaN, false, undefined are
falsy; arrays and all other modelled values are truthy). -/
def truthy : JSVal → Bool
  | .str s => s ≠ ""
  | .num q => q ≠ 0
  | .nan => false
  | .bool b => b
  | .arr _ => true
  | .undef => false

/-- Strict equality (===): no coercion, `NaN === x` is false, two array
objects compare by reference and the compared records are distinct
objects, so arrays are never strictly equal here. -/
def jsEq : JSVal → JSVal → Bool
  | .str a, .str b => a = b
  | .num a, .num b => a = b
  | .bool a, .bool b => a = b
  | .undef, .undef => true
  | _, _ => false

/-- The `.length` property: strings and arrays have one, other values
give `undefined` (modelled as `none`). -/
def jsLen : JSVal → Option ℕ
  | .str s => some s.length
  | .arr xs => some xs.length
  | _ => none

/-- Numeric digit list to a natural number. -/
def digitsToNat (ds : List Char) : ℕ :=
  ds.foldl (fun acc c => acc * 10 + (c.toNat - '0'.toNat)) 0

/-- Optional leading sign of a numeric literal. -/
def parseSign : List Char → (ℚ × List Char)
  | '-' :: rest => (-1, rest)
  | '+' :: rest => (1, rest)
  | cs => (1, cs)

/-- Decimal literal `digits[.digits]` at the head of the input; trailing
garbage is ignored (parseFloat-style).  `none` when no digit occurs. -/
def parseDecimalChars (cs : List Char) : Option ℚ :=
  let intDs := cs.takeWhile Char.isDigit
  let rest := cs.dropWhile Char.isDigit
  match rest with
  | '.' :: rest2 =>
    let fracDs := rest2.takeWhile Char.isDigit
    if intDs.isEmpty && fracDs.isEmpty then none
    else some ((digitsToNat intDs : ℚ) + (digitsToNat fracDs : ℚ) / (10 : ℚ) ^ fracDs.length)
  | _ => if intDs.isEmpty then none else some (digitsToNat intDs : ℚ)

/-- parseFloat on a string: skip whitespace, optional sign, then the
longest decimal prefix; NaN (`none`) when no digits are found. -/
def parseFloatString (s : String) : Option ℚ :=
  let cs := s.toList.dropWhile Char.isWhitespace
  let (sign, cs2) := parseSign cs
  (parseDecimalChars cs2).map (fun q => sign * q)

/-- parseFloat applied to an arbitrary value (arrays stringify first;
booleans and undefined give NaN). -/
def parseFloatJS : JSVal → Option ℚ
  | .num q => some q
  | .nan => none
  | .str s => parseFloatString s
  | .bool _ => none
  | .arr xs => parseFloatString (String.intercalate "," xs)
  | .undef => none

/-- Full-string decimal literal (Number()-style): the whole input after
the sign must be `digits`, `digits.digits`, `.digits` or `digits.`. -/
def numberFromChars (cs : List Char) : Option ℚ :=
  let (sign, cs2) := parseSign cs
  let intDs := cs2.takeWhile Char.isDigit
  let rest := cs2.dropWhile Char.isDigit
  match rest with
  | [] => if intDs.isEmpty then none else some (sign * (digitsToNat intDs : ℚ))
  | '.' :: rest2 =>
    let fracDs := rest2.takeWhile Char.isDigit
    let rest3 := rest2.dropWhile Char.isDigit
    if rest3.isEmpty && !(intDs.isEmpty && fracDs.isEmpty) then
      some (sign * ((digitsToNat intDs : ℚ) + (digitsToNat fracDs : ℚ) / (10 : ℚ) ^ fracDs.length))
    else none
  | _ => none

/-- Number() coercion of a string: empty/whitespace-only is 0, otherwise
the trimmed content must be a full decimal literal. -/
def numberOfString (s : String) : Option ℚ :=
  let cs := ((s.toList.dropWhile Char.isWhitespace).reverse.dropWhile Char.isWhitespace).reverse
  if cs.isEmpty then some 0 else numberFromChars cs

/-- Number() coercion of a value (`none` represents NaN). -/
def numberCoerce : JSVal → Option ℚ
  | .num q => some q
  | .nan => none
  | .str s => numberOfString s
  | .bool b => some (if b then 1 else 0)
  | .arr xs => numberOfString (String.intercalate "," xs)
  | .undef => none

/-- isNaN(v): Number() coercion yields NaN. -/
def isNaNjs (v : JSVal) : Bool := (numberCoerce v).isNone

/-- The comparison `v < 0` (relational operators coerce to number; a NaN
comparison is false). -/
def ltZeroJs (v : JSVal) : Bool :=
  match numberCoerce v with
  | some q => q < 0
  | none => false

/-- parseInt at the head of a character list: sign then leading digits. -/
def parseIntChars (cs : List Char) : Option ℤ :=
  let (sign, cs2) := parseSign cs
  let ds := cs2.takeWhile Char.isDigit
  if ds.isEmpty then none
  else some ((if sign < 0 then -1 else 1) * (digitsToNat ds : ℤ))

/-- parseInt on a value: numbers stringify and keep their integer part
(truncation toward zero), strings/arrays parse their leading digits. -/
def parseIntJS : JSVal → Option ℤ
  | .num q => some (if 0 ≤ q then Int.floor q else -Int.floor (-q))
  | .nan => none
  | .str s => parseIntChars (s.toList.dropWhile Char.isWhitespace)
  | .bool _ => none
  | .arr xs => parseIntChars ((String.intercalate "," xs).toList.dropWhile Char.isWhitespace)
  | .undef => none

/-- Two-digit zero-padded rendering of a natural number below 100. -/
def twoDigitPad (n : ℕ) : String :=
  if n < 10 then "0" ++ toString n else toString n

/-- toFixed(2) on a finite number: round to the nearest hundredth (ties
toward positive infinity, as the larger candidate is chosen). -/
def fixed2String (q : ℚ) : String :=
  let scaled : ℤ := Int.floor (q * 100 + 1 / 2)
  let a := scaled.natAbs
  let s := toString (a / 100) ++ "." ++ twoDigitPad (a % 100)
  if scaled < 0 then "-" ++ s else s

/-- parseFloat(v).toFixed(2): NaN renders as the string "NaN". -/
def formatFixed2 : Option ℚ → String
  | none => "NaN"
  | some q => fixed2String q

/-- Fractional decimal digits of num/den by long division, up to a fuel
bound (JavaScript float rendering always terminates; the bound is
never reached for the values arising here). -/
def fracDigitStr : ℕ → ℕ → ℕ → String
  | 0, _, _ => ""
  | _, 0, _ => ""
  | fuel + 1, num, den => toString (num * 10 / den) ++ fracDigitStr fuel (num * 10 % den) den

/-- String rendering of a finite number. -/
def numToString (q : ℚ) : String :=
  let sign := if q < 0 then "-" else ""
  let a := |q|
  let ip : ℤ := Int.floor a
  let fq : ℚ := a - (ip : ℚ)
  if fq = 0 then sign ++ toString ip
  else sign ++ toString ip ++ "." ++ fracDigitStr 20 fq.num.natAbs fq.den

/-- String() coercion of a value (template-literal interpolation). -/
def jsToString : JSVal → String
  | .str s => s
  | .num q => numToString q
  | .nan => "NaN"
  | .bool b => if b then "true" else "false"
  | .arr xs => String.intercalate "," xs
  | .undef => "undefined"

/-- A record is an association list from property names to values, with
at most one binding per name in well-formed data (lookup takes the
first). -/
abbrev Rec := List (String × JSVal)

/-- Property read `r[k]`: `undefined` when the property is absent. -/
def jsGet : Rec → String → JSVal
  | [], _ => .undef
  | (k', v) :: rest, k => if k' = k then v else jsGet rest k

/-- Property write `r[k] = v`: overwrite in place, append when new. -/
def setField : Rec → String → JSVal → Rec
  | [], k, v => [(k, v)]
  | (k', v') :: rest, k, v =>
    if k' = k then (k, v) :: rest else (k', v') :: setField rest k v

/-- A field mapping as produced by the mapping-suggestion step. -/
structure FieldMapping where
  sourceField : String
  targetField : String
  confidence : ℤ
  reasoning : String
deriving DecidableEq, Repr

/-- transformFieldValue: per-target-field coercion — price parses as a
float and formats to two decimals (NaN stays visible as "NaN"),
inventory_quantity parses as an integer defaulting to 0, tags joins
arrays with commas, everything else passes through. -/
def transformFieldValue (value : JSVal) (targetField : String) : JSVal :=
  if targetField = "price" then
    .str (formatFixed2 (parseFloatJS value))
  else if targetField = "inventory_quantity" then
    match parseIntJS value with
    | some n => .num (n : ℚ)
    | none => .num 0
  else if targetField = "tags" then
    match value with
    | .arr xs => .str (String.intercalate "," xs)
    | v => v
  else value

/-- One loop iteration of transformRecord: when the mapping's
sourceField and targetField are non-empty and the source property is
defined, write the coerced value to the target property. -/
def transformStep (record : Rec) (acc : Rec) (m : FieldMapping) : Rec :=
  if m.sourceField ≠ "" ∧ m.targetField ≠ "" ∧ jsGet record m.sourceField ≠ .undef then
    setField acc m.targetField (transformFieldValue (jsGet record m.sourceField) m.targetField)
  else acc

/-- transformRecord: fold the mapping list over an initially empty
output record. -/
def transformRecord (record : Rec) (mappings : List FieldMapping) : Rec :=
  mappings.foldl (transformStep record) []

/-- validateShopifyRecord: title at most 255 characters, price numeric
and non-negative, SKU at most 100 characters; every check is guarded
by truthiness of the field. -/
def validateShopifyRecord (record : Rec) : Bool × List String :=
  let titleV := jsGet record "title"
  let priceV := jsGet record "price"
  let skuV := jsGet record "sku"
  let errors :=
    (if truthy titleV && (match jsLen titleV with | some l => decide (255 < l) | none => false) then
      ["Product title exceeds 255 characters"] else []) ++
    (if truthy priceV && (isNaNjs priceV || ltZeroJs priceV) then
      ["Price must be a positive number"] else []) ++
    (if truthy skuV && (match jsLen skuV with | some l => decide (100 < l) | none => false) then
      ["SKU exceeds 100 characters"] else [])
  (errors.isEmpty, errors)

/-- A record rejected by validation, with its transform and errors. -/
structure InvalidEntry where
  original : Rec
  transformed : Rec
  errors : List String
deriving DecidableEq, Repr

/-- Output of validateAndTransformData. -/
structure ValidationOutput where
  validData : List Rec
  invalidData : List InvalidEntry
  transformationLog : List String
deriving DecidableEq, Repr

/-- validateAndTransformData: transform each record, validate it, and
partition into valid and invalid data with a log line per record.  The
transform is total in this model, so the source's per-record exception
path is unreachable. -/
def validateAndTransformData (mappings : List FieldMapping) : List Rec → ValidationOutput
  | [] => ⟨[], [], []⟩
  | r :: rest =>
    let t := transformRecord r mappings
    let v := validateShopifyRecord t
    let tail := validateAndTransformData mappings rest
    if v.1 then
      ⟨t :: tail.validData, tail.invalidData,
        "✓ Record transformed successfully" :: tail.transformationLog⟩
    else
      let joined := String.intercalate ", " v.2
      ⟨tail.validData, ⟨r, t, v.2⟩ :: tail.invalidData,
        (s!"✗ Validation failed: {joined}") :: tail.transformationLog⟩

/-- recordsMatch: strict equality on the sku, id or email property of
the two records (first criterion that holds wins; order sku, id,
email).  Absent properties read as `undefined` on both sides. -/
def recordsMatch (original migrated : Rec) : Bool :=
  jsEq (jsGet original "sku") (jsGet migrated "sku") ||
  jsEq (jsGet original "id") (jsGet migrated "id") ||
  jsEq (jsGet original "email") (jsGet migrated "email")

/-- findDataInconsistencies: one entry per critical field (title, price,
sku, email) whose values differ between the original and the migrated
record. -/
def findDataInconsistencies (original migrated : Rec) : List String :=
  ["title", "price", "sku", "email"].foldr
    (fun f acc =>
      if jsEq (jsGet original f) (jsGet migrated f) then acc
      else
        let ov := jsToString (jsGet original f)
        let mv := jsToString (jsGet migrated f)
        (s!"{f}: {ov} → {mv}") :: acc)
    []

/-- Result of verifyMigrationIntegrity.  The integrity percentage is an
`Option ℚ`: `none` is the NaN produced by the division
`((length - missing) / length) * 100` when the original set is empty. -/
structure IntegrityResult where
  integrity : Option ℚ
  missingRecords : List Rec
  inconsistencies : List (Rec × Rec × List String)
deriving DecidableEq, Repr

/-- verifyMigrationIntegrity: originals without a matching migrated
record are missing; matched pairs with differing critical fields are
inconsistencies; the percentage divides by the original count with no
special case for the empty original set (0/0 is NaN). -/
def verifyMigrationIntegrity (originalData migratedData : List Rec) : IntegrityResult :=
  let missingRecords :=
    originalData.filter (fun o => !(migratedData.any (fun m => recordsMatch o m)))
  let inconsistencies :=
    originalData.filterMap (fun o =>
      match migratedData.find? (fun m => recordsMatch o m) with
      | some m =>
        let issues := findDataInconsistencies o m
        if issues.isEmpty then none else some (o, m, issues)
      | none => none)
  let integrity : Option ℚ :=
    if originalData.length = 0 then none
    else some (((originalData.length : ℚ) - (missingRecords.length : ℚ)) / (originalData.length : ℚ) * 100)
  ⟨integrity, missingRecords, inconsistencies⟩

/-- RateLimiter state: a token bucket with capacity 40, refill rate 2
credits per second, refilled lazily from the wall clock (milliseconds). -/
structure RLState where
  currentCredits : ℤ
  lastRefill : ℕ
deriving DecidableEq, Repr

/-- Freshly constructed rate limiter (construction instant taken as
time 0). -/
def initialRL : RLState := ⟨40, 0⟩

/-- refillCredits at wall-clock time `now`: add
floor(elapsedSeconds * 2) credits capped at the bucket size of 40, and
move the refill timestamp only when at least one credit was added. -/
def refillCredits (now : ℕ) (s : RLState) : RLState :=
  let timePassedMs := now - s.lastRefill
  let creditsToAdd : ℤ := ((timePassedMs * 2) / 1000 : ℕ)
  if 0 < creditsToAdd then ⟨min 40 (s.currentCredits + creditsToAdd), now⟩ else s

/-- Wait time before retrying when `credits ≤ 0`:
ceil((1 - credits) / refillRate * 1000) milliseconds. -/
def waitTimeMs (credits : ℤ) : ℕ :=
  (Int.ceil ((1 - (credits : ℚ)) / 2 * 1000)).toNat

/-- throttle: refill at call time `t1`; when no credit is available,
suspend and refill again at wake time `t2`, then consume one credit.
Returns the new state and the post-refill credit count observed just
before the decrement. -/
def throttle (t1 t2 : ℕ) (s : RLState) : RLState × ℤ :=
  let s1 := refillCredits t1 s
  if s1.currentCredits ≤ 0 then
    let s2 := refillCredits t2 s1
    (⟨s2.currentCredits - 1, s2.lastRefill⟩, s2.currentCredits)
  else
    (⟨s1.currentCredits - 1, s1.lastRefill⟩, s1.currentCredits)

/-- getAvailableCredits: lazily refill, return the credit count. -/
def getAvailableCredits (t : ℕ) (s : RLState) : RLState × ℤ :=
  let s' := refillCredits t s
  (s', s'.currentCredits)

/-- An observable interaction with the rate limiter, tagged with the
wall-clock instants at which it runs (`t1` call time, `t2` wake time
of the suspension inside throttle). -/
inductive RLEvent where
  | throttle (t1 t2 : ℕ)
  | getCredits (t : ℕ)
deriving DecidableEq, Repr

/-- Run a sequence of rate-limiter events; collect the credit count
after every event and the pre-decrement count of every throttle. -/
def rlRun : RLState → List RLEvent → RLState × List ℤ × List ℤ
  | s, [] => (s, [], [])
  | s, .getCredits t :: es =>
    let r := getAvailableCredits t s
    let rest := rlRun r.1 es
    (rest.1, r.2 :: rest.2.1, rest.2.2)
  | s, .throttle t1 t2 :: es =>
    let r := throttle t1 t2 s
    let rest := rlRun r.1 es
    (rest.1, r.1.currentCredits :: rest.2.1, r.2 :: rest.2.2)

/-- Validity of an event sequence from state `s`: the wall clock never
runs backwards relative to the recorded refill timestamp, and a
suspension inside throttle wakes no earlier than the computed wait
time (the setTimeout guarantee). -/
def rlValid : RLState → List RLEvent → Bool
  | _, [] => true
  | s, .getCredits t :: es =>
    decide (s.lastRefill ≤ t) && rlValid (refillCredits t s) es
  | s, .throttle t1 t2 :: es =>
    let s1 := refillCredits t1 s
    decide (s.lastRefill ≤ t1) &&
    (if s1.currentCredits ≤ 0 then decide (t1 + waitTimeMs s1.currentCredits ≤ t2) else true) &&
    rlValid (throttle t1 t2 s).1 es

/-- RetryQueue entry: an operation kind, resource, payload and optional
external id, together with the retry counter. -/
inductive OpKind where
  | CREATE
  | UPDATE
  | DELETE
deriving DecidableEq, Repr

/-- An operation handed to the executor. -/
structure BatchOperation where
  operation : OpKind
  resource : String
  data : Rec
  id : Option String
deriving DecidableEq, Repr

/-- RetryQueue entry: the operation and how many retries it has used. -/
structure RQEntry where
  operation : BatchOperation
  retryCount : ℕ
deriving DecidableEq, Repr

/-- Termination measure for the retry loop: each entry can be attempted
at most `3 - retryCount` more times before it is removed. -/
def rqMeasure (q : List RQEntry) : ℕ :=
  q.foldr (fun e acc => (3 - min e.retryCount 3) + 1 + acc) 0

/-- Trace of one processRetries run: the entries attempted (with their
retry count at attempt time), the entries that succeeded, and the
entries reported as permanently failed via the max-retries error log. -/
structure RetryRun where
  attempted : List RQEntry
  succeeded : List RQEntry
  reported : List RQEntry
deriving DecidableEq, Repr

/-- Fuel-indexed loop body of processRetries: dequeue from the front;
entries at the retry cap (3) are reported as permanently failed and
dropped without another attempt; otherwise attempt the operation
(outcome given by the oracle, indexed by attempt number) and on
failure re-enqueue at the back with the counter incremented.  The fuel
is only a termination device: `processRetries` supplies enough for the
loop to drain the queue. -/
def processRetriesAux (oracle : ℕ → Bool) : ℕ → List RQEntry → ℕ → RetryRun
  | _, [], _ => ⟨[], [], []⟩
  | 0, _ :: _, _ => ⟨[], [], []⟩
  | fuel + 1, item :: rest, k =>
    if 3 ≤ item.retryCount then
      let r := processRetriesAux oracle fuel rest k
      ⟨r.attempted, r.succeeded, item :: r.reported⟩
    else if oracle k then
      let r := processRetriesAux oracle fuel rest (k + 1)
      ⟨item :: r.attempted, item :: r.succeeded, r.reported⟩
    else
      let r := processRetriesAux oracle fuel
        (rest ++ [{ item with retryCount := item.retryCount + 1 }]) (k + 1)
      ⟨item :: r.attempted, r.succeeded, r.reported⟩

/-- processRetries: drain the queue with maxRetries = 3. -/
def processRetries (oracle : ℕ → Bool) (queue : List RQEntry) : RetryRun :=
  processRetriesAux oracle (rqMeasure queue) queue 0

/-- Outcome of one executeOperation call against the external API:
success, or an error with a message and an optional HTTP status. -/
inductive OpResult where
  | ok
  | err (message : String) (status : Option ℕ)
deriving DecidableEq, Repr

/-- Substring test on character lists. -/
def listStartsWith : List Char → List Char → Bool
  | _, [] => true
  | [], _ :: _ => false
  | c :: cs, p :: ps => c = p && listStartsWith cs ps

/-- Whether `pat` occurs inside `s`. -/
def strHasSub (s pat : String) : Bool :=
  (List.range (s.toList.length + 1)).any (fun i => listStartsWith (s.toList.drop i) pat.toList)

/-- isRetryableError: retryable when the status is one of 429, 500, 502,
503, 504 or the message mentions a rate limit or timeout. -/
def isRetryableError (message : String) (status : Option ℕ) : Bool :=
  (match status with
   | some st => [429, 500, 502, 503, 504].contains st
   | none => false) ||
  strHasSub message "rate limit" ||
  strHasSub message "timeout"

/-- One recorded per-operation failure of a migration run. -/
structure MigrationError where
  operation : BatchOperation
  error : String
  retryCount : ℕ
deriving DecidableEq, Repr

/-- MigrationProgress status values. -/
inductive MStatus where
  | pending
  | running
  | completed
  | failed
deriving DecidableEq, Repr

/-- MigrationProgress: totals, counters, terminal status and errors. -/
structure MigrationProgress where
  total : ℕ
  completed : ℕ
  failed : ℕ
  status : MStatus
  errors : List MigrationError
deriving DecidableEq, Repr

/-- calculateOptimalBatchSize: base size 10 scaled by the remaining
rate-limit headroom (credits / 40), but at least 1. -/
def calculateOptimalBatchSize (credits : ℤ) : ℕ :=
  max 1 ((10 * credits) / 40).toNat

/-- Accumulator-based chunking: `size` is the batch size, `rem` the room
left in the batch under construction (`acc`, reversed). -/
def chunkAux (size : ℕ) : List BatchOperation → List BatchOperation → ℕ → List (List BatchOperation)
  | [], acc, _ => if acc.isEmpty then [] else [acc.reverse]
  | x :: xs, acc, rem + 1 => chunkAux size xs (x :: acc) rem
  | x :: xs, acc, 0 => acc.reverse :: chunkAux size xs [x] (size - 1)

/-- createOptimalBatches: slice the operation list into consecutive
batches of `batchSize`. -/
def createOptimalBatches (batchSize : ℕ) (operations : List BatchOperation) : List (List BatchOperation) :=
  chunkAux batchSize operations [] batchSize

/-- Process the operations of one batch, numbering the attempts from
`i`: returns (completed, failed, errors, retry-queue additions).  A
failed operation records an error with retryCount 0 and is added to
the retry queue when its error is retryable. -/
def runBatchOps (outcome : ℕ → OpResult) : List BatchOperation → ℕ → ℕ × ℕ × List MigrationError × List BatchOperation
  | [], _ => (0, 0, [], [])
  | op :: rest, i =>
    let r := runBatchOps outcome rest (i + 1)
    match outcome i with
    | .ok => (r.1 + 1, r.2.1, r.2.2.1, r.2.2.2)
    | .err msg st =>
      (r.1, r.2.1 + 1, ⟨op, msg, 0⟩ :: r.2.2.1,
       if isRetryableError msg st then op :: r.2.2.2 else r.2.2.2)

/-- Process a list of batches in order (one throttle call per batch paces
execution but does not change the collected outcome). -/
def runBatches (outcome : ℕ → OpResult) : List (List BatchOperation) → ℕ → ℕ × ℕ × List MigrationError × List BatchOperation
  | [], _ => (0, 0, [], [])
  | b :: bs, i =>
    let rb := runBatchOps outcome b i
    let rr := runBatches outcome bs (i + b.length)
    (rb.1 + rr.1, rb.2.1 + rr.2.1, rb.2.2.1 ++ rr.2.2.1, rb.2.2.2 ++ rr.2.2.2)

/-- batchProcessOperations: batch by the current rate-limit headroom,
execute every operation (outcomes from the environment), count
successes and failures, and set the final status with the source's
ternary that yields 'completed' in both branches.  Returns the
progress and the operations enqueued for retry. -/
def batchProcessOperations (credits : ℤ) (operations : List BatchOperation)
    (outcome : ℕ → OpResult) : MigrationProgress × List BatchOperation :=
  let batches := createOptimalBatches (calculateOptimalBatchSize credits) operations
  let r := runBatches outcome batches 0
  (⟨operations.length, r.1, r.2.1,
    if r.2.1 = 0 then .completed else .completed, r.2.2.1⟩, r.2.2.2)

/-- Status of one poll of the external bulk operation. -/
inductive BulkPoll where
  | running
  | completed
  | failed (errorCode : Option String)
deriving DecidableEq, Repr

/-- Placeholder operation used for synthetic error entries. -/
def syntheticOperation : BatchOperation := ⟨.CREATE, "product", [], none⟩

/-- monitorBulkOperation: poll until a terminal status; COMPLETED marks
all records completed, FAILED records one synthetic error (the error
code, or a default when absent or empty) and leaves the counters
untouched.  `none` models the unbounded poll loop never observing a
terminal status within the given poll sequence. -/
def monitorBulkOperation (progress : MigrationProgress) : List BulkPoll → Option MigrationProgress
  | [] => none
  | .running :: rest => monitorBulkOperation progress rest
  | .completed :: _ =>
    some { progress with status := .completed, completed := progress.total }
  | .failed errorCode :: _ =>
    let msg := match errorCode with
      | some c => if c = "" then "Bulk operation failed" else c
      | none => "Bulk operation failed"
    some { progress with
             status := .failed
             errors := progress.errors ++ [⟨syntheticOperation, msg, 0⟩] }

/-- bulkImportProducts: submit one bulk job (the submission either
returns an operation id or throws) and monitor it to a terminal
state; a thrown submission error is caught and yields status 'failed'
with the counters left at zero. -/
def bulkImportProducts (products : List Rec) (submit : Except String Unit)
    (polls : List BulkPoll) : Option MigrationProgress :=
  let progress : MigrationProgress :=
    ⟨products.length, 0, 0, .running, []⟩
  match submit with
  | .error _ => some { progress with status := .failed }
  | .ok _ => monitorBulkOperation progress polls

/-- The orchestrator's fixed stage list. -/
def baseStepIds : List String := ["validation", "backup", "products", "customers", "orders", "verification"]

/-- createMigrationPlan keeps the requested resource stages plus the
always-present validation, backup and verification stages. -/
def planStepIds (resourceTypes : List String) : List String :=
  baseStepIds.filter (fun id =>
    resourceTypes.contains id || ["validation", "backup", "verification"].contains id)

/-- isResourceType: duck-typed classification of a record by the truthy
presence of characteristic fields. -/
def isResourceType (record : Rec) (resourceType : String) : Bool :=
  if resourceType = "products" then
    truthy (jsGet record "title") || truthy (jsGet record "sku") || truthy (jsGet record "price")
  else if resourceType = "customers" then
    truthy (jsGet record "email") || truthy (jsGet record "first_name") || truthy (jsGet record "last_name")
  else if resourceType = "orders" then
    truthy (jsGet record "order_number") || truthy (jsGet record "total_price")
  else false

/-- Environment of one executeMigration run: whether the webhook setup
succeeds (or the message it throws with), the rate-limit credits seen
by each resource stage, and the per-stage per-operation outcomes. -/
structure ExecEnv where
  webhooks : Except String Unit
  creditsAt : String → ℤ
  opOutcome : String → ℕ → OpResult

/-- The MigrationProgress returned by executeMigration's catch block. -/
def failedRunResult (n : ℕ) (msg : String) : MigrationProgress :=
  ⟨n, 0, n, .failed, [⟨syntheticOperation, msg, 0⟩]⟩

/-- Trace of one executeMigration run: its returned progress, the
per-stage progress produced by the batch executor, and every
operation handed to the executor. -/
structure ExecResult where
  result : MigrationProgress
  stageProgress : List (String × MigrationProgress)
  attemptedOps : List BatchOperation
deriving Repr

/-- executeMigration (batch/hybrid strategy execution): validate and
transform (aborting the run when any record is invalid), create the
backup, set up webhooks (whose failure also aborts), then for each
planned resource stage batch-create the matching valid records, run
verification, and return a success progress built from the source
record count — independently of the failures the batch executor
recorded.  The backup and verification steps of the source cannot
throw and only touch step bookkeeping, so they contribute nothing
observable here. -/
def executeMigration (resourceTypes : List String) (sourceData : List Rec)
    (mappings : List FieldMapping) (env : ExecEnv) : ExecResult :=
  let n := sourceData.length
  let validation := validateAndTransformData mappings sourceData
  if validation.invalidData.length ≠ 0 then
    ⟨failedRunResult n (toString validation.invalidData.length ++ " records failed validation"), [], []⟩
  else
    match env.webhooks with
    | .error msg => ⟨failedRunResult n msg, [], []⟩
    | .ok _ =>
      let validData := (validateAndTransformData mappings sourceData).validData
      let stages := (planStepIds resourceTypes).filter
        (fun id => ["products", "customers", "orders"].contains id)
      let stageRuns := stages.map (fun id =>
        let ops := (validData.filter (fun r => isResourceType r id)).map
          (fun r => (⟨.CREATE, id, r, none⟩ : BatchOperation))
        (id, (batchProcessOperations (env.creditsAt id) ops (env.opOutcome id)).1, ops))
      ⟨⟨n, n, 0, .completed, []⟩,
       stageRuns.map (fun s => (s.1, s.2.1)),
       (stageRuns.map (fun s => s.2.2)).flatten⟩

/-- Spec-side characterization of one matching criterion: the two field
values are strictly equal, and strict equality can hold (the shared
value is neither NaN nor an array object). -/
def strictSameField (o m : Rec) (f : String) : Prop :=
  jsGet o f = jsGet m f ∧ jsGet o f ≠ .nan ∧ ∀ xs, jsGet o f ≠ .arr xs

/-- The rate-limiter bucket invariant: credits within [0, 40]. -/
def rlInv (s : RLState) : Prop :=
  0 ≤ s.currentCredits ∧ s.currentCredits ≤ 40

/-- Environment in which webhook setup succeeds and every operation
fails with a non-retryable error. -/
def sampleFailEnv : ExecEnv :=
  ⟨Except.ok (), fun _ => 40, fun _ _ => OpResult.err "boom" none⟩

/-- Environment in which webhook setup and every operation succeed. -/
def sampleOkEnv : ExecEnv :=
  ⟨Except.ok (), fun _ => 40, fun _ _ => OpResult.ok⟩

/-- Strict equality holds exactly when the two values are equal and the
shared value admits strict equality (not NaN, not an array object). -/
theorem jsEq_true_iff (a b : JSVal) :
    jsEq a b = true ↔ a = b ∧ a ≠ .nan ∧ ∀ xs, a ≠ .arr xs := by
  cases a <;> cases b <;> simp [jsEq]

/-- C3 (counterexample): on an empty original set the integrity
percentage is the NaN of 0/0 (modelled `none`), not 100. -/
theorem c3_counterexample :
    (verifyMigrationIntegrity [] []).integrity = none ∧
    (verifyMigrationIntegrity [] []).missingRecords = [] ∧
    (verifyMigrationIntegrity [] []).integrity ≠ some 100 := by
  refine ⟨rfl, rfl, by simp [verifyMigrationIntegrity]⟩

/-- C3 (amended): for every migrated list, verifying against an empty
original set yields NaN integrity (the division by zero is not
special-cased) together with empty missing-record and inconsistency
lists. -/
theorem c3_amended (migratedData : List Rec) :
    verifyMigrationIntegrity [] migratedData = ⟨none, [], []⟩ := rfl

/-- C4 (counterexample): two records that both lack a SKU and differ in
id and email are nevertheless matched, because `undefined === undefined`
holds for the absent sku properties. -/
theorem c4_counterexample :
    jsGet [("id", JSVal.str "1"), ("email", JSVal.str "a@x.com")] "sku" = .undef ∧
    jsGet [("id", JSVal.str "2"), ("email", JSVal.str "b@y.com")] "sku" = .undef ∧
    jsGet [("id", JSVal.str "1"), ("email", JSVal.str "a@x.com")] "id" ≠
      jsGet [("id", JSVal.str "2"), ("email", JSVal.str "b@y.com")] "id" ∧
    jsGet [("id", JSVal.str "1"), ("email", JSVal.str "a@x.com")] "email" ≠
      jsGet [("id", JSVal.str "2"), ("email", JSVal.str "b@y.com")] "email" ∧
    recordsMatch [("id", JSVal.str "1"), ("email", JSVal.str "a@x.com")]
      [("id", JSVal.str "2"), ("email", JSVal.str "b@y.com")] = true := by
  decide

/-- C4 (amended): recordsMatch treats two records as the same logical
entity iff for at least one of sku, id, email (in that order) the two
property values are strictly equal — including the case where both
records lack the property, since absent properties read as undefined
on both sides; a shared value of NaN or an array never matches. -/
theorem c4_amended (o m : Rec) :
    recordsMatch o m = true ↔
      strictSameField o m "sku" ∨ strictSameField o m "id" ∨ strictSameField o m "email" := by
  simp only [recordsMatch, Bool.or_eq_true, jsEq_true_iff, strictSameField]
  tauto

/-- C4 (witness for the amended claim): the amended characterization
instantiated on two records sharing the non-empty SKU "A". -/
theorem c4_amended_witness :
    strictSameField [("sku", JSVal.str "A")] [("sku", JSVal.str "A"), ("id", JSVal.str "9")] "sku" ∨
    strictSameField [("sku", JSVal.str "A")] [("sku", JSVal.str "A"), ("id", JSVal.str "9")] "id" ∨
    strictSameField [("sku", JSVal.str "A")] [("sku", JSVal.str "A"), ("id", JSVal.str "9")] "email" :=
  (c4_amended [("sku", JSVal.str "A")] [("sku", JSVal.str "A"), ("id", JSVal.str "9")]).mp (by decide)

/-- C9: transformRecord is a pure function of the record and the mapping
list — the embedding takes no state because the source function reads
no mutable state — so two calls on the same pair give the same output. -/
theorem c9_transform_pure (record : Rec) (mappings : List FieldMapping) :
    transformRecord record mappings = transformRecord record mappings := rfl

/-- C10: every constraint check of validateShopifyRecord is guarded by
truthiness of the field, so a record whose title, price and sku are
all falsy (absent, empty, zero, NaN or false) is valid with no
errors; in particular the empty record passes. -/
theorem c10_falsy_fields_valid (record : Rec)
    (h1 : truthy (jsGet record "title") = false)
    (h2 : truthy (jsGet record "price") = false)
    (h3 : truthy (jsGet record "sku") = false) :
    validateShopifyRecord record = (true, []) := by
  simp [validateShopifyRecord, h1, h2, h3]

/-- C10 (witness): the empty record has falsy title, price and sku and
passes validation with no errors. -/
theorem c10_witness :
    truthy (jsGet [] "title") = false ∧ truthy (jsGet [] "price") = false ∧
    truthy (jsGet [] "sku") = false ∧ validateShopifyRecord [] = (true, []) :=
  ⟨rfl, rfl, rfl, c10_falsy_fields_valid [] rfl rfl rfl⟩

/-- Lazy refill keeps the credit count inside the bucket bounds. -/
theorem refill_rlInv (now : ℕ) (s : RLState) (h : rlInv s) : rlInv (refillCredits now s) := by
  obtain ⟨h0, h40⟩ := h
  simp only [rlInv, refillCredits]
  split <;> ((try dsimp only); omega)

/-- Lazy refill never removes credits. -/
theorem refill_mono (now : ℕ) (s : RLState) (h : rlInv s) :
    s.currentCredits ≤ (refillCredits now s).currentCredits := by
  obtain ⟨h0, h40⟩ := h
  simp only [refillCredits]
  split <;> ((try dsimp only); omega)

/-- Refilling at a time past the recorded timestamp leaves the timestamp
at or before that time. -/
theorem refill_lastRefill_le (now : ℕ) (s : RLState) (h : s.lastRefill ≤ now) :
    (refillCredits now s).lastRefill ≤ now := by
  simp only [refillCredits]
  split <;> ((try dsimp only); omega)

/-- The wait-time formula evaluates to (1 - credits) * 500 milliseconds
on integer credit counts. -/
theorem waitTimeMs_eq (c : ℤ) : waitTimeMs c = ((1 - c) * 500).toNat := by
  unfold waitTimeMs
  congr 1
  rw [show (1 - (c : ℚ)) / 2 * 1000 = (((1 - c) * 500 : ℤ) : ℚ) by push_cast; ring]
  exact Int.ceil_intCast _

/-- After suspending for the computed wait time, the refill restores at
least one credit. -/
theorem refill_after_wait (s1 : RLState) (t1 t2 : ℕ)
    (hc : s1.currentCredits ≤ 0) (hL : s1.lastRefill ≤ t1)
    (hw : t1 + waitTimeMs s1.currentCredits ≤ t2) :
    1 ≤ (refillCredits t2 s1).currentCredits := by
  rw [waitTimeMs_eq] at hw
  simp only [refillCredits]
  split <;> ((try dsimp only); omega)

/-- throttle from a state satisfying the bucket invariant observes a
pre-decrement credit count of at least 1, consumes exactly one credit,
and re-establishes the invariant. -/
theorem throttle_spec (t1 t2 : ℕ) (s : RLState) (h : rlInv s) (hL : s.lastRefill ≤ t1)
    (hw : (refillCredits t1 s).currentCredits ≤ 0 →
      t1 + waitTimeMs (refillCredits t1 s).currentCredits ≤ t2) :
    1 ≤ (throttle t1 t2 s).2 ∧ rlInv (throttle t1 t2 s).1 ∧
    (throttle t1 t2 s).1.currentCredits = (throttle t1 t2 s).2 - 1 := by
  have h1 : rlInv (refillCredits t1 s) := refill_rlInv t1 s h
  have hL1 : (refillCredits t1 s).lastRefill ≤ t1 := refill_lastRefill_le t1 s hL
  simp only [throttle]
  split
  · rename_i hcred
    have hpre := refill_after_wait (refillCredits t1 s) t1 t2 hcred hL1 (hw hcred)
    have h2 : rlInv (refillCredits t2 (refillCredits t1 s)) := refill_rlInv _ _ h1
    obtain ⟨_, h2b⟩ := h2
    refine ⟨hpre, ⟨?_, ?_⟩, rfl⟩ <;> ((try dsimp only); omega)
  · rename_i hcred
    obtain ⟨h1a, h1b⟩ := h1
    refine ⟨by omega, ⟨?_, ?_⟩, rfl⟩ <;> ((try dsimp only); omega)

/-- Every credit count observed along a valid event sequence from an
invariant state stays within the bucket bounds, and every throttle
sees at least one credit before decrementing. -/
theorem rlRun_bounds (events : List RLEvent) :
    ∀ (s : RLState), rlInv s → rlValid s events = true →
      (∀ c ∈ (rlRun s events).2.1, 0 ≤ c ∧ c ≤ 40) ∧
      (∀ p ∈ (rlRun s events).2.2, 1 ≤ p) := by
  induction events with
  | nil => intro s _ _; simp [rlRun]
  | cons e es ih =>
    intro s hs hv
    cases e with
    | getCredits t =>
      simp only [rlValid, Bool.and_eq_true, decide_eq_true_eq] at hv
      obtain ⟨hLe, hv'⟩ := hv
      have hinv' : rlInv (refillCredits t s) := refill_rlInv t s hs
      have hrest := ih (refillCredits t s) hinv' hv'
      simp only [rlRun, getAvailableCredits]
      constructor
      · intro c hc
        rcases List.mem_cons.mp hc with hc | hc
        · subst hc; exact ⟨hinv'.1, hinv'.2⟩
        · exact hrest.1 c hc
      · exact hrest.2
    | throttle t1 t2 =>
      simp only [rlValid, Bool.and_eq_true, decide_eq_true_eq] at hv
      obtain ⟨⟨hLe, hifv⟩, hv'⟩ := hv
      have hw : (refillCredits t1 s).currentCredits ≤ 0 →
          t1 + waitTimeMs (refillCredits t1 s).currentCredits ≤ t2 := by
        intro hneg
        rw [if_pos hneg] at hifv
        exact of_decide_eq_true hifv
      have hspec := throttle_spec t1 t2 s hs hLe hw
      have hinv' : rlInv (throttle t1 t2 s).1 := hspec.2.1
      have hrest := ih (throttle t1 t2 s).1 hinv' hv'
      simp only [rlRun]
      constructor
      · intro c hc
        rcases List.mem_cons.mp hc with hc | hc
        · subst hc; exact ⟨hinv'.1, hinv'.2⟩
        · exact hrest.1 c hc
      · intro p hp
        rcases List.mem_cons.mp hp with hp | hp
        · subst hp; exact hspec.1
        · exact hrest.2 p hp

/-- C5: along every valid sequence of throttle and getAvailableCredits
calls on a fresh rate limiter (capacity 40, refill 2 credits/second,
lazy refill), the credit count observed after each call stays within
[0, 40], and every throttle observes a post-refill credit count of at
least 1 just before its decrement, so consumption never drives the
bucket negative. -/
theorem c5_rate_limiter_inv (events : List RLEvent)
    (hvalid : rlValid initialRL events = true) :
    (∀ c ∈ (rlRun initialRL events).2.1, 0 ≤ c ∧ c ≤ 40) ∧
    (∀ p ∈ (rlRun initialRL events).2.2, 1 ≤ p) :=
  rlRun_bounds events initialRL ⟨by norm_num [initialRL], by norm_num [initialRL]⟩ hvalid

/-- C5 (witness): a concrete valid trace — read credits, throttle once,
read again one second later — in which the post-throttle observation
39 lies within the bucket bounds. -/
theorem c5_witness :
    rlValid initialRL [RLEvent.getCredits 0, RLEvent.throttle 0 0, RLEvent.getCredits 1000] = true ∧
    (39 : ℤ) ∈ (rlRun initialRL [RLEvent.getCredits 0, RLEvent.throttle 0 0, RLEvent.getCredits 1000]).2.1 ∧
    (0 ≤ (39 : ℤ) ∧ (39 : ℤ) ≤ 40) :=
  ⟨by decide, by decide,
   (c5_rate_limiter_inv [RLEvent.getCredits 0, RLEvent.throttle 0 0, RLEvent.getCredits 1000]
     (by decide)).1 39 (by decide)⟩

/-- Folding the retry measure with a nonzero base adds the base. -/
theorem rqMeasure_foldr (l : List RQEntry) (b : ℕ) :
    l.foldr (fun e acc => (3 - min e.retryCount 3) + 1 + acc) b = rqMeasure l + b := by
  induction l with
  | nil => simp [rqMeasure]
  | cons e rest ih => simp [rqMeasure, List.foldr_cons, ih]; omega

/-- Measure of a queue with one entry re-enqueued at the back. -/
theorem rqMeasure_append (l : List RQEntry) (e : RQEntry) :
    rqMeasure (l ++ [e]) = rqMeasure l + ((3 - min e.retryCount 3) + 1) := by
  rw [rqMeasure, List.foldr_append, rqMeasure_foldr]
  simp [rqMeasure]

/-- Measure of a cons cell. -/
theorem rqMeasure_cons (e : RQEntry) (l : List RQEntry) :
    rqMeasure (e :: l) = (3 - min e.retryCount 3) + 1 + rqMeasure l := by
  simp [rqMeasure]

/-- With enough fuel, the retry loop attempts only entries strictly
below the retry cap, reports only entries at or above it, and removes
every queued entry through exactly one exit — success or permanent
failure report. -/
theorem processRetriesAux_spec (oracle : ℕ → Bool) :
    ∀ (fuel : ℕ) (queue : List RQEntry) (k : ℕ), rqMeasure queue ≤ fuel →
      (∀ e ∈ (processRetriesAux oracle fuel queue k).attempted, e.retryCount < 3) ∧
      (∀ e ∈ (processRetriesAux oracle fuel queue k).reported, 3 ≤ e.retryCount) ∧
      (processRetriesAux oracle fuel queue k).succeeded.length +
        (processRetriesAux oracle fuel queue k).reported.length = queue.length := by
  intro fuel
  induction fuel with
  | zero =>
    intro queue k hm
    cases queue with
    | nil => simp [processRetriesAux]
    | cons item rest => rw [rqMeasure_cons] at hm; omega
  | succ fuel ih =>
    intro queue k hm
    cases queue with
    | nil => simp [processRetriesAux]
    | cons item rest =>
      rw [rqMeasure_cons] at hm
      by_cases hmax : 3 ≤ item.retryCount
      · have hrest : rqMeasure rest ≤ fuel := by omega
        have hr := ih rest k hrest
        simp only [processRetriesAux, if_pos hmax]
        refine ⟨hr.1, ?_, ?_⟩
        · intro e he
          rcases List.mem_cons.mp he with rfl | he
          · exact hmax
          · exact hr.2.1 e he
        · simp only [List.length_cons]
          omega
      · have hlt : item.retryCount < 3 := by omega
        by_cases hok : oracle k
        · have hrest : rqMeasure rest ≤ fuel := by omega
          have hr := ih rest (k + 1) hrest
          simp only [processRetriesAux, if_neg hmax, if_pos hok]
          refine ⟨?_, hr.2.1, ?_⟩
          · intro e he
            rcases List.mem_cons.mp he with rfl | he
            · exact hlt
            · exact hr.1 e he
          · simp only [List.length_cons]
            omega
        · have hrest : rqMeasure (rest ++ [{ item with retryCount := item.retryCount + 1 }]) ≤ fuel := by
            rw [rqMeasure_append]
            simp only
            omega
          have hr := ih (rest ++ [{ item with retryCount := item.retryCount + 1 }]) (k + 1) hrest
          simp only [processRetriesAux, if_neg hmax, if_neg hok]
          refine ⟨?_, hr.2.1, ?_⟩
          · intro e he
            rcases List.mem_cons.mp he with rfl | he
            · exact hlt
            · exact hr.1 e he
          · have := hr.2.2
            simp only [List.length_append, List.length_cons, List.length_nil] at this ⊢
            omega

/-- C6: during processRetries an entry whose retryCount has reached the
maximum of 3 is never attempted again (every attempted entry has
retryCount below 3), every reported entry is at the cap, and each
queued entry exits the run exactly once — through success or through
the permanent-failure report — so maxed-out operations are reported
rather than silently dropped. -/
theorem c6_retry_exhaustion (oracle : ℕ → Bool) (queue : List RQEntry) :
    (∀ e ∈ (processRetries oracle queue).attempted, e.retryCount < 3) ∧
    (∀ e ∈ (processRetries oracle queue).reported, 3 ≤ e.retryCount) ∧
    (processRetries oracle queue).succeeded.length +
      (processRetries oracle queue).reported.length = queue.length :=
  processRetriesAux_spec oracle (rqMeasure queue) queue 0 le_rfl

/-- C6 (witness): a queue with one entry that has already used 2 retries
and an always-failing executor — the entry is attempted once more at
count 2, re-enqueued at count 3, then reported permanently failed. -/
theorem c6_witness :
    (⟨syntheticOperation, 3⟩ : RQEntry) ∈
      (processRetries (fun _ => false) [⟨syntheticOperation, 2⟩]).reported ∧
    3 ≤ (⟨syntheticOperation, 3⟩ : RQEntry).retryCount :=
  ⟨by decide,
   (c6_retry_exhaustion (fun _ => false) [⟨syntheticOperation, 2⟩]).2.1
     ⟨syntheticOperation, 3⟩ (by decide)⟩

/-- The chunks produced by chunkAux flatten back to the pending
accumulator followed by the input. -/
theorem chunkAux_flatten (size : ℕ) (l : List BatchOperation) :
    ∀ (acc : List BatchOperation) (rem : ℕ),
      (chunkAux size l acc rem).flatten = acc.reverse ++ l := by
  induction l with
  | nil =>
    intro acc rem
    cases acc <;> simp [chunkAux]
  | cons x xs ih =>
    intro acc rem
    cases rem with
    | zero => simp [chunkAux, ih]
    | succ rem => simp [chunkAux, ih]

/-- Batching is a partition: the batches flatten back to the operation
list. -/
theorem createOptimalBatches_flatten (batchSize : ℕ) (operations : List BatchOperation) :
    (createOptimalBatches batchSize operations).flatten = operations := by
  simp [createOptimalBatches, chunkAux_flatten]

/-- Within one batch every operation is counted exactly once, as a
success or as a failure. -/
theorem runBatchOps_counts (outcome : ℕ → OpResult) :
    ∀ (b : List BatchOperation) (i : ℕ),
      (runBatchOps outcome b i).1 + (runBatchOps outcome b i).2.1 = b.length := by
  intro b
  induction b with
  | nil => intro i; simp [runBatchOps]
  | cons op rest ih =>
    intro i
    have := ih (i + 1)
    simp only [runBatchOps, List.length_cons]
    cases outcome i <;> dsimp only <;> omega

/-- Across a list of batches the success and failure counters add up to
the total number of operations. -/
theorem runBatches_counts (outcome : ℕ → OpResult) :
    ∀ (bs : List (List BatchOperation)) (i : ℕ),
      (runBatches outcome bs i).1 + (runBatches outcome bs i).2.1 = (bs.map List.length).sum := by
  intro bs
  induction bs with
  | nil => intro i; simp [runBatches]
  | cons b rest ih =>
    intro i
    have h1 := runBatchOps_counts outcome b i
    have h2 := ih (i + b.length)
    simp only [runBatches, List.map_cons, List.sum_cons]
    omega

/-- batchProcessOperations always reconciles: completed + failed equals
the operation count, its total. -/
theorem batchProcessOperations_counts (credits : ℤ) (operations : List BatchOperation)
    (outcome : ℕ → OpResult) :
    (batchProcessOperations credits operations outcome).1.completed +
      (batchProcessOperations credits operations outcome).1.failed =
      (batchProcessOperations credits operations outcome).1.total := by
  have h := runBatches_counts outcome (createOptimalBatches (calculateOptimalBatchSize credits) operations) 0
  have hlen : ((createOptimalBatches (calculateOptimalBatchSize credits) operations).map List.length).sum
      = operations.length := by
    rw [← List.length_flatten, createOptimalBatches_flatten]
  simp only [batchProcessOperations]
  omega

/-- A terminal result of the bulk poll loop is the input progress with
either the completed-status update or the failed-status update. -/
theorem monitorBulkOperation_cases (polls : List BulkPoll) :
    ∀ (progress p : MigrationProgress), monitorBulkOperation progress polls = some p →
      p = { progress with status := .completed, completed := progress.total } ∨
      ∃ msg, p = { progress with
                     status := .failed
                     errors := progress.errors ++ [⟨syntheticOperation, msg, 0⟩] } := by
  induction polls with
  | nil => intro progress p h; simp [monitorBulkOperation] at h
  | cons poll rest ih =>
    intro progress p h
    cases poll with
    | running => exact ih progress p h
    | completed =>
      simp only [monitorBulkOperation, Option.some.injEq] at h
      exact Or.inl h.symm
    | failed errorCode =>
      simp only [monitorBulkOperation, Option.some.injEq] at h
      exact Or.inr ⟨_, h.symm⟩

/-- Both terminal results of executeMigration reconcile their counters:
the success record is (n, n, 0) and the catch-block record is
(n, 0, n). -/
theorem executeMigration_counts (resourceTypes : List String) (sourceData : List Rec)
    (mappings : List FieldMapping) (env : ExecEnv) :
    (executeMigration resourceTypes sourceData mappings env).result.completed +
      (executeMigration resourceTypes sourceData mappings env).result.failed =
      (executeMigration resourceTypes sourceData mappings env).result.total := by
  simp only [executeMigration]
  split
  · simp [failedRunResult]
  · split <;> simp [failedRunResult]

/-- C1 (amended): completed + failed == total holds for every terminal
MigrationProgress of batchProcessOperations and executeMigration, and
for bulkImportProducts when the bulk operation completes; but on the
bulk-failure and exception paths of bulkImportProducts both counters
stay at zero, so there the equation holds only for an empty product
list. -/
theorem c1_amended :
    (∀ (credits : ℤ) (operations : List BatchOperation) (outcome : ℕ → OpResult),
       (batchProcessOperations credits operations outcome).1.completed +
         (batchProcessOperations credits operations outcome).1.failed =
         (batchProcessOperations credits operations outcome).1.total) ∧
    (∀ (resourceTypes : List String) (sourceData : List Rec)
       (mappings : List FieldMapping) (env : ExecEnv),
       (executeMigration resourceTypes sourceData mappings env).result.completed +
         (executeMigration resourceTypes sourceData mappings env).result.failed =
         (executeMigration resourceTypes sourceData mappings env).result.total) ∧
    (∀ (products : List Rec) (submit : Except String Unit) (polls : List BulkPoll)
       (p : MigrationProgress), bulkImportProducts products submit polls = some p →
         p.status = .completed → p.completed + p.failed = p.total) ∧
    (∀ (products : List Rec) (submit : Except String Unit) (polls : List BulkPoll)
       (p : MigrationProgress), bulkImportProducts products submit polls = some p →
         p.status = .failed → p.completed = 0 ∧ p.failed = 0) := by
  refine ⟨batchProcessOperations_counts, executeMigration_counts, ?_, ?_⟩
  · intro products submit polls p hbulk hstatus
    cases submit with
    | error msg =>
      simp only [bulkImportProducts, Option.some.injEq] at hbulk
      rw [← hbulk] at hstatus
      simp at hstatus
    | ok u =>
      simp only [bulkImportProducts] at hbulk
      rcases monitorBulkOperation_cases polls _ p hbulk with h | ⟨msg, h⟩
      · subst h; simp
      · subst h; simp at hstatus
  · intro products submit polls p hbulk hstatus
    cases submit with
    | error msg =>
      simp only [bulkImportProducts, Option.some.injEq] at hbulk
      rw [← hbulk]
      exact ⟨rfl, rfl⟩
    | ok u =>
      simp only [bulkImportProducts] at hbulk
      rcases monitorBulkOperation_cases polls _ p hbulk with h | ⟨msg, h⟩
      · subst h; simp at hstatus
      · subst h; exact ⟨rfl, rfl⟩

/-- C1 (counterexample): on the exception path of bulkImportProducts
with one product the returned progress is terminal ('failed') but has
completed = 0 and failed = 0, so completed + failed is not the
total 1. -/
theorem c1_counterexample :
    bulkImportProducts [[("title", JSVal.str "Widget")]] (Except.error "network error") [] =
      some ⟨1, 0, 0, .failed, []⟩ ∧ (0 + 0 : ℕ) ≠ 1 :=
  ⟨rfl, by decide⟩

/-- C1 (witness for the amended claim): a successful one-product bulk
run reconciles its counters. -/
theorem c1_amended_witness :
    bulkImportProducts [[("title", JSVal.str "Widget")]] (Except.ok ()) [BulkPoll.completed] =
      some ⟨1, 1, 0, .completed, []⟩ ∧
    (⟨1, 1, 0, .completed, []⟩ : MigrationProgress).completed +
      (⟨1, 1, 0, .completed, []⟩ : MigrationProgress).failed =
      (⟨1, 1, 0, .completed, []⟩ : MigrationProgress).total :=
  ⟨rfl, c1_amended.2.2.1 [[("title", JSVal.str "Widget")]] (Except.ok ())
    [BulkPoll.completed] ⟨1, 1, 0, .completed, []⟩ rfl rfl⟩

/-- C2 (amended): whenever executeMigration reaches its success path
(validation clean, webhooks up), the returned MigrationProgress is
exactly (total = n, completed = n, failed = 0, 'completed', no
errors) — independent of any per-operation failures the batch
executor recorded during the resource stages, which are therefore
dropped from the returned progress rather than reconciled. -/
theorem c2_amended (resourceTypes : List String) (sourceData : List Rec)
    (mappings : List FieldMapping) (env : ExecEnv)
    (hvalid : (validateAndTransformData mappings sourceData).invalidData = [])
    (hweb : env.webhooks = Except.ok ()) :
    (executeMigration resourceTypes sourceData mappings env).result =
      ⟨sourceData.length, sourceData.length, 0, .completed, []⟩ := by
  simp [executeMigration, hvalid, hweb]

/-- C2 (counterexample): a run whose single operation fails in the batch
executor (recorded there as failed = 1) still returns the success
progress with failed = 0 and status 'completed' — the failure is
silently dropped from the returned record. -/
theorem c2_counterexample :
    (executeMigration ["products"] [[("title", JSVal.str "Widget")]]
        [⟨"title", "title", 90, "direct"⟩] sampleFailEnv).result =
      ⟨1, 1, 0, .completed, []⟩ ∧
    (executeMigration ["products"] [[("title", JSVal.str "Widget")]]
        [⟨"title", "title", 90, "direct"⟩] sampleFailEnv).stageProgress =
      [("products", ⟨1, 0, 1, .completed,
        [⟨⟨.CREATE, "products", [("title", JSVal.str "Widget")], none⟩, "boom", 0⟩]⟩)] :=
  ⟨rfl, rfl⟩

/-- C2 (witness for the amended claim): the clean one-record run returns
the success record. -/
theorem c2_amended_witness :
    (executeMigration ["products"] [[("title", JSVal.str "Widget")]]
        [⟨"title", "title", 90, "direct"⟩] sampleOkEnv).result =
      ⟨1, 1, 0, .completed, []⟩ :=
  c2_amended ["products"] [[("title", JSVal.str "Widget")]]
    [⟨"title", "title", 90, "direct"⟩] sampleOkEnv (by decide) rfl

/-- C7: when validation reports at least one invalid record,
executeMigration aborts with status 'failed' and completed = 0 (its
failed counter covering the whole source set), no resource stage runs
and no operation is handed to the executor. -/
theorem c7_validation_abort (resourceTypes : List String) (sourceData : List Rec)
    (mappings : List FieldMapping) (env : ExecEnv)
    (hinvalid : (validateAndTransformData mappings sourceData).invalidData ≠ []) :
    (executeMigration resourceTypes sourceData mappings env).result.status = .failed ∧
    (executeMigration resourceTypes sourceData mappings env).result.completed = 0 ∧
    (executeMigration resourceTypes sourceData mappings env).result.failed = sourceData.length ∧
    (executeMigration resourceTypes sourceData mappings env).stageProgress = [] ∧
    (executeMigration resourceTypes sourceData mappings env).attemptedOps = [] := by
  have hlen : (validateAndTransformData mappings sourceData).invalidData.length ≠ 0 := by
    simpa [List.length_eq_zero] using hinvalid
  simp [executeMigration, hlen, failedRunResult]

/-- C7 (witness): one record with a non-numeric price fails validation,
and the run aborts with status 'failed', zero completions and no
attempted operations. -/
theorem c7_witness :
    (validateAndTransformData [⟨"price", "price", 90, "direct"⟩]
      [[("price", JSVal.str "abc")]]).invalidData ≠ [] ∧
    (executeMigration ["products"] [[("price", JSVal.str "abc")]]
      [⟨"price", "price", 90, "direct"⟩] sampleOkEnv).result.status = .failed ∧
    (executeMigration ["products"] [[("price", JSVal.str "abc")]]
      [⟨"price", "price", 90, "direct"⟩] sampleOkEnv).result.completed = 0 ∧
    (executeMigration ["products"] [[("price", JSVal.str "abc")]]
      [⟨"price", "price", 90, "direct"⟩] sampleOkEnv).attemptedOps = [] := by
  have h := c7_validation_abort ["products"] [[("price", JSVal.str "abc")]]
    [⟨"price", "price", 90, "direct"⟩] sampleOkEnv (by decide)
  exact ⟨by decide, h.1, h.2.1, h.2.2.2.2⟩

/-- Reading back a freshly written property. -/
theorem jsGet_setField_self (r : Rec) (k : String) (v : JSVal) :
    jsGet (setField r k v) k = v := by
  induction r with
  | nil => simp [setField, jsGet]
  | cons p rest ih =>
    obtain ⟨k', v'⟩ := p
    simp only [setField]
    split
    · simp [jsGet]
    · rename_i hne
      simp [jsGet, hne, ih]

/-- Writing one property leaves the others unchanged. -/
theorem jsGet_setField_ne (r : Rec) (k k2 : String) (v : JSVal) (h : k ≠ k2) :
    jsGet (setField r k v) k2 = jsGet r k2 := by
  induction r with
  | nil => simp [setField, jsGet, h]
  | cons p rest ih =>
    obtain ⟨k', v'⟩ := p
    simp only [setField]
    split
    · rename_i heq
      subst heq
      simp [jsGet, h]
    · simp [jsGet, ih]

/-- An applicable mapping onto the price field with a non-numeric source
value writes the string "NaN". -/
theorem transformStep_writes_nan (record acc : Rec) (m : FieldMapping)
    (ht : m.targetField = "price") (hs : m.sourceField ≠ "")
    (hd : jsGet record m.sourceField ≠ .undef)
    (hp : parseFloatJS (jsGet record m.sourceField) = none) :
    jsGet (transformStep record acc m) "price" = .str "NaN" := by
  unfold transformStep
  rw [if_pos ⟨hs, by rw [ht]; decide, hd⟩, ht, jsGet_setField_self]
  simp [transformFieldValue, hp, formatFixed2]

/-- One transform step keeps an already-NaN price field at "NaN" when
every price-bound source value is non-numeric. -/
theorem transformStep_price_nan (record acc : Rec) (m : FieldMapping)
    (hacc : jsGet acc "price" = .str "NaN")
    (hm : m.targetField = "price" → m.sourceField ≠ "" → jsGet record m.sourceField ≠ .undef →
      parseFloatJS (jsGet record m.sourceField) = none) :
    jsGet (transformStep record acc m) "price" = .str "NaN" := by
  by_cases hcond : m.sourceField ≠ "" ∧ m.targetField ≠ "" ∧ jsGet record m.sourceField ≠ .undef
  · obtain ⟨hs, ht, hd⟩ := hcond
    by_cases htgt : m.targetField = "price"
    · exact transformStep_writes_nan record acc m htgt hs hd (hm htgt hs hd)
    · unfold transformStep
      rw [if_pos ⟨hs, ht, hd⟩, jsGet_setField_ne _ _ _ _ htgt, hacc]
  · unfold transformStep
    rw [if_neg hcond]
    exact hacc

/-- Folding the remaining mappings preserves an already-NaN price field
when every price-bound source value is non-numeric. -/
theorem transform_foldl_price_nan (record : Rec) :
    ∀ (ms : List FieldMapping) (acc : Rec),
      jsGet acc "price" = .str "NaN" →
      (∀ m ∈ ms, m.targetField = "price" → m.sourceField ≠ "" →
        jsGet record m.sourceField ≠ .undef → parseFloatJS (jsGet record m.sourceField) = none) →
      jsGet (ms.foldl (transformStep record) acc) "price" = .str "NaN" := by
  intro ms
  induction ms with
  | nil => intro acc h _; simpa using h
  | cons m rest ih =>
    intro acc h hall
    simp only [List.foldl_cons]
    exact ih _ (transformStep_price_nan record acc m h (hall m (List.mem_cons_self m rest)))
      (fun m' hm' => hall m' (List.mem_cons_of_mem m hm'))

/-- When some mapping applicably targets price and every price-bound
source value is non-numeric, the fold produces a "NaN" price from any
accumulator. -/
theorem transform_foldl_price_nan_ex (record : Rec) :
    ∀ (ms : List FieldMapping) (acc : Rec),
      (∃ m ∈ ms, m.targetField = "price" ∧ m.sourceField ≠ "" ∧
        jsGet record m.sourceField ≠ .undef) →
      (∀ m ∈ ms, m.targetField = "price" → m.sourceField ≠ "" →
        jsGet record m.sourceField ≠ .undef → parseFloatJS (jsGet record m.sourceField) = none) →
      jsGet (ms.foldl (transformStep record) acc) "price" = .str "NaN" := by
  intro ms
  induction ms with
  | nil => intro acc hex _; simp at hex
  | cons m rest ih =>
    intro acc hex hall
    simp only [List.foldl_cons]
    by_cases hm : m.targetField = "price" ∧ m.sourceField ≠ "" ∧ jsGet record m.sourceField ≠ .undef
    · obtain ⟨ht, hs, hd⟩ := hm
      exact transform_foldl_price_nan record rest _
        (transformStep_writes_nan record acc m ht hs hd
          (hall m (List.mem_cons_self m rest) ht hs hd))
        (fun m' hm' => hall m' (List.mem_cons_of_mem m hm'))
    · obtain ⟨m', hm', hprops⟩ := hex
      rcases List.mem_cons.mp hm' with rfl | hmem
      · exact absurd hprops hm
      · exact ih (transformStep record acc m) ⟨m', hmem, hprops⟩
          (fun x hx => hall x (List.mem_cons_of_mem m hx))

/-- transformRecord yields a "NaN" price under the same hypotheses. -/
theorem transformRecord_price_nan (record : Rec) (mappings : List FieldMapping)
    (hex : ∃ m ∈ mappings, m.targetField = "price" ∧ m.sourceField ≠ "" ∧
      jsGet record m.sourceField ≠ .undef)
    (hall : ∀ m ∈ mappings, m.targetField = "price" → m.sourceField ≠ "" →
      jsGet record m.sourceField ≠ .undef → parseFloatJS (jsGet record m.sourceField) = none) :
    jsGet (transformRecord record mappings) "price" = .str "NaN" := by
  unfold transformRecord
  exact transform_foldl_price_nan_ex record mappings [] hex hall

/-- A record whose price field is the string "NaN" fails validation and
carries the price error message. -/
theorem validateShopifyRecord_nan_price (record : Rec)
    (h : jsGet record "price" = .str "NaN") :
    (validateShopifyRecord record).1 = false ∧
    "Price must be a positive number" ∈ (validateShopifyRecord record).2 := by
  have hc : (truthy (JSVal.str "NaN") && (isNaNjs (JSVal.str "NaN") || ltZeroJs (JSVal.str "NaN"))) = true := by
    decide
  simp only [validateShopifyRecord, h, hc, if_true]
  constructor
  · simp
  · simp

/-- A record that fails validation lands in invalidData with its
original form and its validation errors. -/
theorem validateAndTransformData_invalid_mem (mappings : List FieldMapping) :
    ∀ (sourceData : List Rec) (r : Rec), r ∈ sourceData →
      (validateShopifyRecord (transformRecord r mappings)).1 = false →
      ∃ e ∈ (validateAndTransformData mappings sourceData).invalidData,
        e.original = r ∧ e.errors = (validateShopifyRecord (transformRecord r mappings)).2 := by
  intro sourceData
  induction sourceData with
  | nil => intro r hr; simp at hr
  | cons a rest ih =>
    intro r hr hfail
    rcases List.mem_cons.mp hr with rfl | hmem
    · simp only [validateAndTransformData, hfail, Bool.false_eq_true, if_false]
      exact ⟨⟨r, transformRecord r mappings, (validateShopifyRecord (transformRecord r mappings)).2⟩,
        List.mem_cons_self _ _, rfl, rfl⟩
    · obtain ⟨e, he, hprops⟩ := ih r hmem hfail
      by_cases hv : (validateShopifyRecord (transformRecord a mappings)).1
      · simp only [validateAndTransformData, hv, if_true]
        exact ⟨e, he, hprops⟩
      · simp only [validateAndTransformData, Bool.not_eq_true] at hv ⊢
        simp only [hv, Bool.false_eq_true, if_false]
        exact ⟨e, List.mem_cons_of_mem _ he, hprops⟩

/-- C8: a non-numeric value bound to the price target field becomes the
visible string "NaN" — never the silent zero "0.00" and never a
number — in contrast to inventory_quantity, whose unparseable values
default to 0; and a record whose price mapping carries only
non-numeric source values is placed in invalidData with the error
naming the price field. -/
theorem c8_price_error_not_zeroed :
    (∀ v : JSVal, parseFloatJS v = none →
       transformFieldValue v "price" = .str "NaN" ∧
       transformFieldValue v "price" ≠ .str "0.00" ∧
       ∀ q : ℚ, transformFieldValue v "price" ≠ .num q) ∧
    (∀ v : JSVal, parseIntJS v = none → transformFieldValue v "inventory_quantity" = .num 0) ∧
    (∀ (mappings : List FieldMapping) (sourceData : List Rec) (r : Rec), r ∈ sourceData →
       (∃ m ∈ mappings, m.targetField = "price" ∧ m.sourceField ≠ "" ∧
         jsGet r m.sourceField ≠ .undef) →
       (∀ m ∈ mappings, m.targetField = "price" → m.sourceField ≠ "" →
         jsGet r m.sourceField ≠ .undef → parseFloatJS (jsGet r m.sourceField) = none) →
       ∃ e ∈ (validateAndTransformData mappings sourceData).invalidData,
         e.original = r ∧ "Price must be a positive number" ∈ e.errors) := by
  refine ⟨?_, ?_, ?_⟩
  · intro v h
    refine ⟨?_, ?_, ?_⟩ <;> simp [transformFieldValue, h, formatFixed2]
  · intro v h
    unfold transformFieldValue
    rw [if_neg (by decide : ¬("inventory_quantity" = "price")), if_pos rfl, h]
  · intro mappings sourceData r hr hex hall
    have hnan := transformRecord_price_nan r mappings hex hall
    have hval := validateShopifyRecord_nan_price _ hnan
    obtain ⟨e, he, horig, herrs⟩ := validateAndTransformData_invalid_mem mappings sourceData r hr hval.1
    exact ⟨e, he, horig, herrs ▸ hval.2⟩

/-- C8 (witness): one record mapping the source value "abc" to price is
rejected with the price error. -/
theorem c8_witness :
    ∃ e ∈ (validateAndTransformData [⟨"price", "price", 90, "direct"⟩]
        [[("price", JSVal.str "abc")]]).invalidData,
      e.original = [("price", JSVal.str "abc")] ∧
      "Price must be a positive number" ∈ e.errors :=
  c8_price_error_not_zeroed.2.2 [⟨"price", "price", 90, "direct"⟩]
    [[("price", JSVal.str "abc")]] [("price", JSVal.str "abc")]
    (by decide) (by decide) (by decide)
